import Mathlib

/-!
Shallow embedding of the dinorun platformer (`src/main.rs`) and proofs about
its per-frame systems.  `f32` quantities (positions, speeds) are modelled as
exact rationals; `usize` sprite indices as `Nat`.  Rust's `f32::round`
(half away from zero) agrees with Mathlib's `round` (half up) on the
non-negative values arising here.  The numeric constants carry the decimal
values written in the source text (9.8, 14.7, ...); IEEE-754 rounding of
the compiled `f32` constants is not modelled, so properties that hinge on
exact float equality of computed positions are outside this embedding.
-/

namespace Dinorun

/-- The player state enum (`PlayerState` in `main.rs`). -/
inductive PlayerState where
  | Idle
  | Walking
  | Jumping
  | Running
  | Falling
deriving DecidableEq, Repr

/-- `const WALK_ANIMATION: (usize, usize) = (0, 11)`. -/
def WALK_ANIMATION : Nat × Nat := (0, 11)

/-- `const RUN_ANIMATION: (usize, usize) = (12, 19)`. -/
def RUN_ANIMATION : Nat × Nat := (12, 19)

/-- `const JUMP_ANIMATION: (usize, usize) = (20, 24)`. -/
def JUMP_ANIMATION : Nat × Nat := (20, 24)

/-- `const FALL_ANIMATION: (usize, usize) = (25, 29)`. -/
def FALL_ANIMATION : Nat × Nat := (25, 29)

/-- `const GROUND_Y: f32 = -64.0`. -/
def GROUND_Y : ℚ := -64

/-- `const WALK_SPEED: f32 = 1.0`. -/
def WALK_SPEED : ℚ := 1

/-- `const RUN_SPEED: f32 = 1.5`. -/
def RUN_SPEED : ℚ := 15 / 10

/-- `const GRAVITY: f32 = 9.8`. -/
def GRAVITY : ℚ := 98 / 10

/-- `const JUMP_HEIGHT: f32 = 122.0`. -/
def JUMP_HEIGHT : ℚ := 122

/-- `const JUMP_SPEED: f32 = 9.8 * 1.5`. -/
def JUMP_SPEED : ℚ := (98 / 10) * (15 / 10)

/-- The animation data attached to the player entity: the active
`AnimationIndices { first, last }` range together with the displayed
`TextureAtlas` index. -/
structure AnimComp where
  first : Nat
  last : Nat
  index : Nat
deriving DecidableEq, Repr

/-- The `[first, last]` range that `change_animation` installs for each state:
the four `match` arms of the source (Walking/Running/Jumping/Falling); the
wildcard arm (`Idle`) installs nothing. -/
def animRange : PlayerState → Option (Nat × Nat)
  | PlayerState.Walking => some WALK_ANIMATION
  | PlayerState.Running => some RUN_ANIMATION
  | PlayerState.Jumping => some JUMP_ANIMATION
  | PlayerState.Falling => some FALL_ANIMATION
  | PlayerState.Idle => none

/-- The remap arithmetic repeated in every arm of `change_animation`
(`main.rs` lines 72–76):
`prev_length = pr_last - pr_first`, `curr_length = last - first`,
`index = atlas.index - pr_first`, `percentage = index / prev_length`,
`atlas.index = round(percentage * curr_length) + first`. -/
def remap (prFirst prLast newFirst newLast idx : Nat) : Nat :=
  let prevLength := prLast - prFirst
  let currLength := newLast - newFirst
  let offset := idx - prFirst
  let percentage : ℚ := (offset : ℚ) / (prevLength : ℚ)
  (round (percentage * (currLength : ℚ))).toNat + newFirst

/-- The guard under which `change_animation` executes the remap block
(hence the division by `prev_length`): the state selects a range and the
atlas index lies outside it (`atlas.index < indices.first || atlas.index >
indices.last`).  There is no test of `prev_length` anywhere. -/
def remapPerformed (s : PlayerState) (c : AnimComp) : Bool :=
  match animRange s with
  | none => false
  | some (f, l) => decide (c.index < f) || decide (l < c.index)

/-- `fn change_animation`: install the range of the current state and, when
the displayed index falls outside it, rescale the index proportionally from
the previous range into the new one. -/
def change_animation (s : PlayerState) (c : AnimComp) : AnimComp :=
  match animRange s with
  | none => c
  | some (f, l) =>
      { first := f, last := l,
        index :=
          if c.index < f ∨ l < c.index then remap c.first c.last f l c.index
          else c.index }

/-- The index-advance step of `fn animate_sprite` (lines 127–138): when the
repeating timer just finished, an index at `last` wraps to `first` for
Walking/Running, holds at `last` for Jumping/Falling (and wraps for the
wildcard arm); any other index advances by one.  Without a timer completion
the index is untouched. -/
def animate_index_step (s : PlayerState) (first last : Nat)
    (justFinished : Bool) (idx : Nat) : Nat :=
  if justFinished then
    if idx = last then
      match s with
      | PlayerState.Walking | PlayerState.Running => first
      | PlayerState.Jumping | PlayerState.Falling => last
      | PlayerState.Idle => first
    else idx + 1
  else idx

/-- The horizontal-move half of `fn animate_sprite` (lines 142–157): the
player's x advances by 1.0 for Walking/Jumping/Falling and 1.5 for Running;
the wildcard arm (Idle) moves nothing. -/
def animate_move (s : PlayerState) (x : ℚ) : ℚ :=
  match s with
  | PlayerState.Walking => x + 1
  | PlayerState.Running => x + 15 / 10
  | PlayerState.Jumping => x + 1
  | PlayerState.Falling => x + 1
  | PlayerState.Idle => x

/-- The per-frame keyboard snapshot (spec §6: each logical signal reports a
level "pressed" and edge "just pressed/released").  `main.rs` reads
`pressed(Space)`, `pressed(ArrowLeft)`, `pressed(ArrowRight)`,
`just_pressed(ShiftLeft)` and `just_released(ShiftLeft)`; the edge signal of
Space is carried here so that theorems can quantify over it, but the code
never consults it. -/
structure Input where
  space_pressed : Bool
  space_just_pressed : Bool
  left_pressed : Bool
  right_pressed : Bool
  shift_just_pressed : Bool
  shift_just_released : Bool
deriving DecidableEq, Repr

/-- The player record: the `Player` component (`on_ground`, `state`) together
with the x and y of its `Transform` translation. -/
structure PlayerT where
  on_ground : Bool
  state : PlayerState
  x : ℚ
  y : ℚ
deriving DecidableEq, Repr

/-- First block of `fn player_movement` (lines 296–310): while Space is
pressed, a grounded player leaves the ground with state Jumping and an
instantaneous `JUMP_SPEED` impulse; an airborne Jumping player keeps rising
by `JUMP_SPEED` and, upon reaching `GROUND_Y + JUMP_HEIGHT`, is clamped to
that ceiling and switches to Falling. -/
def jump_stage (inp : Input) (p : PlayerT) : PlayerT :=
  if inp.space_pressed then
    if p.on_ground then
      { p with on_ground := false, state := PlayerState.Jumping,
               y := p.y + JUMP_SPEED }
    else if p.state = PlayerState.Jumping then
      if GROUND_Y + JUMP_HEIGHT ≤ p.y + JUMP_SPEED then
        { p with y := GROUND_Y + JUMP_HEIGHT, state := PlayerState.Falling }
      else
        { p with y := p.y + JUMP_SPEED }
    else p
  else p

/-- Arrow-key block of `fn player_movement` (lines 311–317): ArrowLeft moves
x by −2.0, ArrowRight by +2.0, independently of everything else. -/
def arrows_stage (inp : Input) (p : PlayerT) : PlayerT :=
  let p1 := if inp.left_pressed then { p with x := p.x - 2 } else p
  if inp.right_pressed then { p1 with x := p1.x + 2 } else p1

/-- Shift block of `fn player_movement` (lines 320–328): a just-pressed left
Shift forces state Running, else a just-released left Shift forces state
Walking. -/
def shift_stage (inp : Input) (p : PlayerT) : PlayerT :=
  if inp.shift_just_pressed then { p with state := PlayerState.Running }
  else if inp.shift_just_released then { p with state := PlayerState.Walking }
  else p

/-- Landing block of `fn player_movement` (lines 331–335): an airborne player
at or below ground level is clamped to `GROUND_Y`, regains `on_ground` and
walks. -/
def ground_stage (p : PlayerT) : PlayerT :=
  if p.y ≤ GROUND_Y ∧ p.on_ground = false then
    { p with on_ground := true, y := GROUND_Y, state := PlayerState.Walking }
  else p

/-- `fn player_movement`: the four blocks in source order. -/
def player_movement (inp : Input) (p : PlayerT) : PlayerT :=
  ground_stage (shift_stage inp (arrows_stage inp (jump_stage inp p)))

/-- `fn apply_gravity`: an airborne player drops by `GRAVITY` each frame. -/
def apply_gravity (p : PlayerT) : PlayerT :=
  if p.on_ground then p else { p with y := p.y - GRAVITY }

/-- One `Update` frame restricted to its effect on the player record, with
the systems in the order they are listed in `main`: `animate_sprite` (which
moves x by the state-dependent speed), then `player_movement`, then
`apply_gravity`.  `move_camera_system` and `change_animation` do not touch
the player record. -/
def frameStep (inp : Input) (p : PlayerT) : PlayerT :=
  apply_gravity (player_movement inp { p with x := animate_move p.state p.x })

/-- Iterate `frameStep` over a list of per-frame inputs. -/
def run (p : PlayerT) (l : List Input) : PlayerT :=
  l.foldl (fun q i => frameStep i q) p

/-- The player entity spawned by `fn setup` (lines 263–288): translation
`(0.0, GROUND_Y, 1.5)`, `on_ground: true`, `state: Walking`. -/
def setup_player : PlayerT :=
  { on_ground := true, state := PlayerState.Walking, x := 0, y := GROUND_Y }

/-- The `AnimationIndices`/atlas data spawned by `fn setup`: index
`WALK_ANIMATION.0`, range `first = WALK_ANIMATION.0`, `last =
FALL_ANIMATION.1`. -/
def setup_anim : AnimComp :=
  { first := WALK_ANIMATION.1, last := FALL_ANIMATION.2, index := WALK_ANIMATION.1 }

/-- An input frame with no key activity. -/
def noInput : Input :=
  { space_pressed := false, space_just_pressed := false, left_pressed := false,
    right_pressed := false, shift_just_pressed := false,
    shift_just_released := false }

/-- Space held down (level signal) without being newly pressed this frame. -/
def spaceHeld : Input := { noInput with space_pressed := true }

/-- Left Shift newly pressed this frame. -/
def shiftPress : Input := { noInput with shift_just_pressed := true }

/-- Left Shift released this frame. -/
def shiftRelease : Input := { noInput with shift_just_released := true }

section StageLemmas

variable (inp : Input) (p : PlayerT)

lemma arrows_stage_y : (arrows_stage inp p).y = p.y := by
  unfold arrows_stage; split_ifs <;> rfl

lemma arrows_stage_state : (arrows_stage inp p).state = p.state := by
  unfold arrows_stage; split_ifs <;> rfl

lemma arrows_stage_on_ground : (arrows_stage inp p).on_ground = p.on_ground := by
  unfold arrows_stage; split_ifs <;> rfl

lemma arrows_stage_x : (arrows_stage inp p).x =
    p.x + (if inp.left_pressed = true then -2 else 0) +
      (if inp.right_pressed = true then 2 else 0) := by
  unfold arrows_stage; split_ifs <;> simp <;> ring

lemma shift_stage_y : (shift_stage inp p).y = p.y := by
  unfold shift_stage; split_ifs <;> rfl

lemma shift_stage_x : (shift_stage inp p).x = p.x := by
  unfold shift_stage; split_ifs <;> rfl

lemma shift_stage_on_ground : (shift_stage inp p).on_ground = p.on_ground := by
  unfold shift_stage; split_ifs <;> rfl

lemma shift_stage_id (h1 : inp.shift_just_pressed = false)
    (h2 : inp.shift_just_released = false) : shift_stage inp p = p := by
  unfold shift_stage; rw [h1, h2]; simp

lemma ground_stage_skip {q : PlayerT} (h : ¬(q.y ≤ GROUND_Y ∧ q.on_ground = false)) :
    ground_stage q = q := by
  unfold ground_stage; rw [if_neg h]

lemma ground_stage_x (q : PlayerT) : (ground_stage q).x = q.x := by
  unfold ground_stage; split_ifs <;> rfl

lemma jump_stage_x : (jump_stage inp p).x = p.x := by
  unfold jump_stage; split_ifs <;> rfl

lemma apply_gravity_state (q : PlayerT) : (apply_gravity q).state = q.state := by
  unfold apply_gravity; split_ifs <;> rfl

lemma apply_gravity_on_ground (q : PlayerT) :
    (apply_gravity q).on_ground = q.on_ground := by
  unfold apply_gravity; split_ifs <;> rfl

end StageLemmas

/-- C1: jump lifecycle of `player_movement`, in a frame with no Shift edge
activity.  (1) With Space pressed and the player grounded at or above ground
level, the frame ends with state Jumping, `on_ground = false` and the
`JUMP_SPEED` impulse applied.  (2) While Space stays pressed in state
Jumping below the ceiling, y grows by exactly `JUMP_SPEED` and the state
stays Jumping.  (3) When `y + JUMP_SPEED` reaches `GROUND_Y + JUMP_HEIGHT`,
y is clamped to that ceiling and the state becomes Falling.  (4) When an
airborne Falling player is at or below `GROUND_Y`, y is clamped to
`GROUND_Y`, `on_ground` becomes true and the state becomes Walking. -/
theorem player_movement_jump_lifecycle (inp : Input) (p : PlayerT)
    (hjp : inp.shift_just_pressed = false)
    (hjr : inp.shift_just_released = false) :
    (inp.space_pressed = true → p.on_ground = true → GROUND_Y ≤ p.y →
      (player_movement inp p).state = PlayerState.Jumping ∧
      (player_movement inp p).on_ground = false ∧
      (player_movement inp p).y = p.y + JUMP_SPEED) ∧
    (inp.space_pressed = true → p.on_ground = false →
      p.state = PlayerState.Jumping → GROUND_Y ≤ p.y →
      p.y + JUMP_SPEED < GROUND_Y + JUMP_HEIGHT →
      (player_movement inp p).state = PlayerState.Jumping ∧
      (player_movement inp p).on_ground = false ∧
      (player_movement inp p).y = p.y + JUMP_SPEED) ∧
    (inp.space_pressed = true → p.on_ground = false →
      p.state = PlayerState.Jumping →
      GROUND_Y + JUMP_HEIGHT ≤ p.y + JUMP_SPEED →
      (player_movement inp p).state = PlayerState.Falling ∧
      (player_movement inp p).on_ground = false ∧
      (player_movement inp p).y = GROUND_Y + JUMP_HEIGHT) ∧
    (p.on_ground = false → p.state = PlayerState.Falling → p.y ≤ GROUND_Y →
      (player_movement inp p).state = PlayerState.Walking ∧
      (player_movement inp p).on_ground = true ∧
      (player_movement inp p).y = GROUND_Y) := by
  unfold player_movement
  refine ⟨?_, ?_, ?_, ?_⟩
  · intro hsp hog hy
    have hj : jump_stage inp p =
        { p with on_ground := false, state := PlayerState.Jumping,
                 y := p.y + JUMP_SPEED } := by
      unfold jump_stage; rw [hsp, hog]; simp
    rw [hj, shift_stage_id _ _ hjp hjr, ground_stage_skip, arrows_stage_state,
      arrows_stage_on_ground, arrows_stage_y]
    · exact ⟨rfl, rfl, rfl⟩
    · rw [arrows_stage_y, arrows_stage_on_ground]
      intro ⟨hle, _⟩
      simp only [GROUND_Y, JUMP_SPEED] at hle hy
      norm_num at hle
      linarith
  · intro hsp hog hst hy hceil
    have hj : jump_stage inp p = { p with y := p.y + JUMP_SPEED } := by
      unfold jump_stage
      rw [hsp, hog, hst]
      simp [if_neg (not_le.mpr hceil)]
    rw [hj, shift_stage_id _ _ hjp hjr, ground_stage_skip, arrows_stage_state,
      arrows_stage_on_ground, arrows_stage_y]
    · exact ⟨hst, hog, rfl⟩
    · rw [arrows_stage_y, arrows_stage_on_ground]
      intro ⟨hle, _⟩
      simp only [GROUND_Y, JUMP_SPEED] at hle hy
      norm_num at hle
      linarith
  · intro hsp hog hst hceil
    have hj : jump_stage inp p =
        { p with y := GROUND_Y + JUMP_HEIGHT, state := PlayerState.Falling } := by
      unfold jump_stage
      rw [hsp, hog, hst]
      simp [if_pos hceil]
    rw [hj, shift_stage_id _ _ hjp hjr, ground_stage_skip, arrows_stage_state,
      arrows_stage_on_ground, arrows_stage_y]
    · exact ⟨rfl, hog, rfl⟩
    · rw [arrows_stage_y, arrows_stage_on_ground]
      intro ⟨hle, _⟩
      simp only [GROUND_Y, JUMP_HEIGHT] at hle
      norm_num at hle
  · intro hog hst hy
    have hj : jump_stage inp p = p := by
      unfold jump_stage
      rcases hsp : inp.space_pressed with _ | _
      · simp
      · rw [hog, hst]; simp
    rw [hj, shift_stage_id _ _ hjp hjr]
    have hcond : (arrows_stage inp p).y ≤ GROUND_Y ∧
        (arrows_stage inp p).on_ground = false := by
      rw [arrows_stage_y, arrows_stage_on_ground]; exact ⟨hy, hog⟩
    unfold ground_stage
    rw [if_pos hcond]
    exact ⟨rfl, rfl, rfl⟩

/-- C1 witness: the theorem applied to a grounded player with Space held. -/
theorem player_movement_jump_lifecycle_witness :
    (player_movement spaceHeld setup_player).state = PlayerState.Jumping :=
  ((player_movement_jump_lifecycle spaceHeld setup_player rfl rfl).1 rfl rfl
    (by norm_num [setup_player, GROUND_Y])).1

/-- C3 counterexample: a jump input that is merely held (pressed but not
newly pressed this frame) while the player is grounded does trigger the
transition to Jumping, because `player_movement` tests the level signal
`pressed(Space)`, never the edge signal. -/
theorem held_jump_still_triggers :
    spaceHeld.space_just_pressed = false ∧
    (player_movement spaceHeld setup_player).state = PlayerState.Jumping ∧
    (player_movement spaceHeld setup_player).on_ground = false := by
  refine ⟨rfl, ?_⟩
  norm_num [player_movement, jump_stage, arrows_stage, shift_stage,
    ground_stage, spaceHeld, noInput, setup_player, GROUND_Y, JUMP_SPEED]

/-- C3 amended: the transition to Jumping (with `on_ground := false` and the
`JUMP_SPEED` impulse) occurs exactly when the level jump signal is pressed
and `on_ground` is true — whether or not the press is new this frame: the
edge signal `space_just_pressed` is unconstrained on both sides. -/
theorem jump_level_triggered (inp : Input) (p : PlayerT)
    (hjp : inp.shift_just_pressed = false)
    (hjr : inp.shift_just_released = false)
    (hog : p.on_ground = true) (hy : GROUND_Y ≤ p.y) :
    (inp.space_pressed = true →
      (player_movement inp p).state = PlayerState.Jumping ∧
      (player_movement inp p).on_ground = false ∧
      (player_movement inp p).y = p.y + JUMP_SPEED) ∧
    (inp.space_pressed = false →
      (player_movement inp p).state = p.state ∧
      (player_movement inp p).on_ground = true ∧
      (player_movement inp p).y = p.y) := by
  unfold player_movement
  constructor
  · intro hsp
    have hj : jump_stage inp p =
        { p with on_ground := false, state := PlayerState.Jumping,
                 y := p.y + JUMP_SPEED } := by
      unfold jump_stage; rw [hsp, hog]; simp
    rw [hj, shift_stage_id _ _ hjp hjr, ground_stage_skip, arrows_stage_state,
      arrows_stage_on_ground, arrows_stage_y]
    · exact ⟨rfl, rfl, rfl⟩
    · rw [arrows_stage_y, arrows_stage_on_ground]
      intro ⟨hle, _⟩
      simp only [GROUND_Y, JUMP_SPEED] at hle hy
      norm_num at hle
      linarith
  · intro hsp
    have hj : jump_stage inp p = p := by unfold jump_stage; rw [hsp]; simp
    rw [hj, shift_stage_id _ _ hjp hjr, ground_stage_skip, arrows_stage_state,
      arrows_stage_on_ground, arrows_stage_y]
    · exact ⟨rfl, hog, rfl⟩
    · rw [arrows_stage_on_ground, hog]
      simp

/-- C3 witness: the amended theorem applied to the grounded setup player,
once with Space held (not newly pressed) and once with no input. -/
theorem jump_level_triggered_witness :
    (player_movement spaceHeld setup_player).y = setup_player.y + JUMP_SPEED ∧
    (player_movement noInput setup_player).state = setup_player.state :=
  ⟨((jump_level_triggered spaceHeld setup_player rfl rfl rfl
      (by norm_num [setup_player, GROUND_Y])).1 rfl).2.2,
    ((jump_level_triggered noInput setup_player rfl rfl rfl
      (by norm_num [setup_player, GROUND_Y])).2 rfl).1⟩

/-- A player starting at or above ground level (strictly above when
airborne) is still strictly above ground, or grounded, after `jump_stage`:
the landing condition of `ground_stage` cannot hold. -/
lemma jump_stage_no_land (inp : Input) (p : PlayerT)
    (hg : p.on_ground = true → GROUND_Y ≤ p.y)
    (ha : p.on_ground = false → GROUND_Y < p.y) :
    ¬((jump_stage inp p).y ≤ GROUND_Y ∧ (jump_stage inp p).on_ground = false) := by
  unfold jump_stage
  split_ifs with h1 h2 h3 h4 <;> intro hc <;>
    [skip; skip; skip; skip; skip] <;> try (obtain ⟨hle, hogf⟩ := hc)
  · have := hg h2
    simp only [GROUND_Y, JUMP_SPEED] at hle this ⊢
    norm_num at hle
    linarith
  · simp only [GROUND_Y, JUMP_HEIGHT] at hle
    norm_num at hle
  · have hb : p.on_ground = false := by
      cases hob : p.on_ground
      · rfl
      · exact absurd hob h2
    have := ha hb
    simp only [GROUND_Y, JUMP_SPEED] at hle this
    norm_num at hle
    linarith
  · have hb : p.on_ground = false := by
      cases hob : p.on_ground
      · rfl
      · exact absurd hob h2
    have := ha hb
    simp only [GROUND_Y] at hle this
    linarith
  · have := ha hogf
    simp only [GROUND_Y] at hle this
    linarith

/-- C7: run-modifier edge behaviour.  (1) In a frame where left Shift is
newly pressed, `player_movement` ends in state Running whatever the
vertical bookkeeping (`on_ground`, current state) is, provided the player
sits at/above ground level (strictly above when airborne).  (2) In a frame
where left Shift is released, it ends in state Walking.  (3) Pressing then
releasing Shift on two consecutive frames starting from a grounded player
yields Running then Walking, with no other state in between. -/
theorem run_modifier_edges (inp : Input) (p : PlayerT)
    (hg : p.on_ground = true → GROUND_Y ≤ p.y)
    (ha : p.on_ground = false → GROUND_Y < p.y) :
    (inp.shift_just_pressed = true →
      (player_movement inp p).state = PlayerState.Running) ∧
    (inp.shift_just_pressed = false → inp.shift_just_released = true →
      (player_movement inp p).state = PlayerState.Walking) ∧
    (∀ (s : PlayerState) (x : ℚ),
      (frameStep shiftPress
        { on_ground := true, state := s, x := x, y := GROUND_Y }).state =
          PlayerState.Running ∧
      (frameStep shiftRelease (frameStep shiftPress
        { on_ground := true, state := s, x := x, y := GROUND_Y })).state =
          PlayerState.Walking) := by
  refine ⟨?_, ?_, ?_⟩
  · intro hjp
    unfold player_movement
    have hshift : shift_stage inp (arrows_stage inp (jump_stage inp p)) =
        { arrows_stage inp (jump_stage inp p) with
            state := PlayerState.Running } := by
      unfold shift_stage; rw [hjp]; simp
    rw [hshift, ground_stage_skip]
    · intro hc
      have h1 : (arrows_stage inp (jump_stage inp p)).y ≤ GROUND_Y := hc.1
      have h2 : (arrows_stage inp (jump_stage inp p)).on_ground = false := hc.2
      rw [arrows_stage_y] at h1
      rw [arrows_stage_on_ground] at h2
      exact jump_stage_no_land inp p hg ha ⟨h1, h2⟩
  · intro hjp hjr
    unfold player_movement
    have hshift : shift_stage inp (arrows_stage inp (jump_stage inp p)) =
        { arrows_stage inp (jump_stage inp p) with
            state := PlayerState.Walking } := by
      unfold shift_stage; rw [hjp, hjr]; simp
    rw [hshift]
    unfold ground_stage
    split_ifs <;> rfl
  · intro s x
    cases s <;>
      norm_num [frameStep, animate_move, player_movement, jump_stage,
        arrows_stage, shift_stage, ground_stage, apply_gravity, shiftPress,
        shiftRelease, noInput, GROUND_Y]

/-- C7 witness: the theorem applied to the grounded setup player with a
Shift press. -/
theorem run_modifier_edges_witness :
    (player_movement shiftPress setup_player).state = PlayerState.Running :=
  (run_modifier_edges shiftPress setup_player
    (fun _ => by norm_num [setup_player, GROUND_Y])
    (fun h => by simp [setup_player] at h)).1 rfl

/-- C8: per-frame horizontal displacement.  (1) `animate_sprite` advances x
by `WALK_SPEED` (1.0) in states Walking, Jumping and Falling and by
`RUN_SPEED` (1.5) in Running.  (2) Independently of state, `player_movement`
changes x by −2.0 exactly when MoveLeft is pressed and by +2.0 exactly when
MoveRight is pressed, and by nothing else. -/
theorem horizontal_displacement (s : PlayerState) (x : ℚ) (inp : Input)
    (p : PlayerT) (hs : s ≠ PlayerState.Idle) :
    animate_move s x =
      x + (if s = PlayerState.Running then RUN_SPEED else WALK_SPEED) ∧
    (player_movement inp p).x =
      p.x + (if inp.left_pressed = true then -2 else 0) +
        (if inp.right_pressed = true then 2 else 0) := by
  constructor
  · cases s <;> simp [animate_move, RUN_SPEED, WALK_SPEED] at hs ⊢
  · unfold player_movement
    rw [ground_stage_x, shift_stage_x, arrows_stage_x, jump_stage_x]

/-- C8 witness: the theorem applied to a running player with MoveRight
pressed. -/
theorem horizontal_displacement_witness :
    animate_move PlayerState.Running 0 = 0 + RUN_SPEED ∧
    (player_movement { noInput with right_pressed := true } setup_player).x =
      setup_player.x + 0 + 2 := by
  have h := horizontal_displacement PlayerState.Running 0
    { noInput with right_pressed := true } setup_player (by simp)
  refine ⟨?_, ?_⟩
  · simpa using h.1
  · simpa [noInput] using h.2

/-- C5: the Animation Frame Selector.  On a timer completion an index below
`last` advances by exactly one; an index equal to `last` wraps to `first`
in states Walking and Running but holds at `last` in states Jumping and
Falling; without a timer completion the index is unchanged. -/
theorem animate_sprite_frame_advance (s : PlayerState) (first last idx : Nat) :
    (idx ≠ last → animate_index_step s first last true idx = idx + 1) ∧
    ((s = PlayerState.Walking ∨ s = PlayerState.Running) →
      animate_index_step s first last true last = first) ∧
    ((s = PlayerState.Jumping ∨ s = PlayerState.Falling) →
      animate_index_step s first last true last = last) ∧
    (animate_index_step s first last false idx = idx) := by
  refine ⟨?_, ?_, ?_, rfl⟩
  · intro hne
    unfold animate_index_step
    rw [if_pos rfl, if_neg hne]
  · rintro (rfl | rfl) <;> simp [animate_index_step]
  · rintro (rfl | rfl) <;> simp [animate_index_step]

/-- C5 witness: the theorem applied across its four cases with the concrete
walk and jump ranges of the game. -/
theorem animate_sprite_frame_advance_witness :
    animate_index_step PlayerState.Walking 0 11 true 5 = 6 ∧
    animate_index_step PlayerState.Walking 0 11 true 11 = 0 ∧
    animate_index_step PlayerState.Jumping 20 24 true 24 = 24 ∧
    animate_index_step PlayerState.Falling 25 29 false 27 = 27 :=
  ⟨(animate_sprite_frame_advance PlayerState.Walking 0 11 5).1 (by decide),
   (animate_sprite_frame_advance PlayerState.Walking 0 11 11).2.1 (Or.inl rfl),
   (animate_sprite_frame_advance PlayerState.Jumping 20 24 24).2.2.1 (Or.inl rfl),
   (animate_sprite_frame_advance PlayerState.Falling 25 29 27).2.2.2⟩

/-- C6: the worked remap example of the spec: previous range `[0, 11]`, new
range `[20, 24]` (state Jumping), current frame 6 — which lies outside the
new range — remaps to `round(6/11 * 4) + 20 = 22`. -/
theorem remap_example_six_to_twentytwo :
    change_animation PlayerState.Jumping
      { first := 0, last := 11, index := 6 } =
      { first := 20, last := 24, index := 22 } := by
  norm_num [change_animation, animRange, remap, JUMP_ANIMATION, round_eq]
  rfl

/-- C2 counterexample: with previous range `[5, 5]` (length 0) and frame 15,
a transition to Walking does trigger the remap block — `change_animation`
contains no zero-length guard, so the division `offset / previous_length`
is performed with a zero divisor rather than skipped. -/
theorem zero_length_remap_not_skipped :
    (({ first := 5, last := 5, index := 15 } : AnimComp).last -
      ({ first := 5, last := 5, index := 15 } : AnimComp).first = 0) ∧
    remapPerformed PlayerState.Walking
      { first := 5, last := 5, index := 15 } = true := by
  decide

/-- Every `[first, last]` pair the program ever stores in an
`AnimationIndices` component: the initial pair written by `setup`
(`WALK_ANIMATION.0`, `FALL_ANIMATION.1`) and the four pairs written by
`change_animation`. -/
def installedRanges : List (Nat × Nat) :=
  [(WALK_ANIMATION.1, FALL_ANIMATION.2), WALK_ANIMATION, RUN_ANIMATION,
    JUMP_ANIMATION, FALL_ANIMATION]

/-- Unfolding of `change_animation` on a state that owns a range. -/
lemma change_animation_spec (s : PlayerState) (f l : Nat) (c : AnimComp)
    (h : animRange s = some (f, l)) :
    change_animation s c =
      { first := f, last := l,
        index :=
          if c.index < f ∨ l < c.index then remap c.first c.last f l c.index
          else c.index } := by
  unfold change_animation
  rw [h]

/-- C2 amended: the code has no explicit zero-length guard, but it never
needs one — every range it ever installs has positive length, and
`change_animation` only replaces an installed range by another installed
range, so `previous_length = 0` never arises in execution. -/
theorem installed_range_never_zero_length (s : PlayerState) (c : AnimComp)
    (h : (c.first, c.last) ∈ installedRanges) :
    0 < c.last - c.first ∧
    ((change_animation s c).first, (change_animation s c).last) ∈
      installedRanges := by
  constructor
  · simp [installedRanges, WALK_ANIMATION, RUN_ANIMATION, JUMP_ANIMATION,
      FALL_ANIMATION, Prod.ext_iff] at h
    omega
  · cases s
    · simpa [change_animation, animRange] using h
    · rw [change_animation_spec PlayerState.Walking 0 11 c rfl]
      simp [installedRanges, WALK_ANIMATION]
    · rw [change_animation_spec PlayerState.Jumping 20 24 c rfl]
      simp [installedRanges, JUMP_ANIMATION]
    · rw [change_animation_spec PlayerState.Running 12 19 c rfl]
      simp [installedRanges, RUN_ANIMATION]
    · rw [change_animation_spec PlayerState.Falling 25 29 c rfl]
      simp [installedRanges, FALL_ANIMATION]

/-- C2 witness: the amended theorem applied to the component written by
`setup`, transitioning to Running. -/
theorem installed_range_never_zero_length_witness :
    0 < setup_anim.last - setup_anim.first ∧
    ((change_animation PlayerState.Running setup_anim).first,
      (change_animation PlayerState.Running setup_anim).last) ∈
      installedRanges :=
  installed_range_never_zero_length PlayerState.Running setup_anim (by decide)

/-- With the current frame inside the previous range and that range of
positive length, the remapped frame lands inside the new range. -/
lemma remap_bounds (a b f l idx : Nat) (h1 : a ≤ idx) (h2 : idx ≤ b)
    (h3 : a < b) (h4 : f ≤ l) :
    f ≤ remap a b f l idx ∧ remap a b f l idx ≤ l := by
  have hrw : remap a b f l idx =
      (round (((idx - a : Nat) : ℚ) / ((b - a : Nat) : ℚ) *
        ((l - f : Nat) : ℚ))).toNat + f := rfl
  rw [hrw]
  have hL : 0 < b - a := by omega
  have hoff : idx - a ≤ b - a := by omega
  have hq1 : ((idx - a : Nat) : ℚ) / ((b - a : Nat) : ℚ) ≤ 1 := by
    rw [div_le_one (by exact_mod_cast hL)]
    exact_mod_cast hoff
  have hprod0 : (0 : ℚ) ≤
      ((idx - a : Nat) : ℚ) / ((b - a : Nat) : ℚ) * ((l - f : Nat) : ℚ) := by
    positivity
  have hprodC :
      ((idx - a : Nat) : ℚ) / ((b - a : Nat) : ℚ) * ((l - f : Nat) : ℚ) ≤
        ((l - f : Nat) : ℚ) := by
    calc ((idx - a : Nat) : ℚ) / ((b - a : Nat) : ℚ) * ((l - f : Nat) : ℚ) ≤
        1 * ((l - f : Nat) : ℚ) :=
          mul_le_mul_of_nonneg_right hq1 (by positivity)
      _ = ((l - f : Nat) : ℚ) := one_mul _
  have hrC : round
      (((idx - a : Nat) : ℚ) / ((b - a : Nat) : ℚ) * ((l - f : Nat) : ℚ)) ≤
        ((l - f : Nat) : ℤ) := by
    have hmono : round
        (((idx - a : Nat) : ℚ) / ((b - a : Nat) : ℚ) * ((l - f : Nat) : ℚ)) ≤
          round (((l - f : Nat) : ℚ)) := by
      rw [round_eq, round_eq]
      exact Int.floor_le_floor (by linarith)
    rwa [round_natCast] at hmono
  refine ⟨Nat.le_add_left f _, ?_⟩
  have htn : (round
      (((idx - a : Nat) : ℚ) / ((b - a : Nat) : ℚ) *
        ((l - f : Nat) : ℚ))).toNat ≤ l - f := Int.toNat_le.mpr hrC
  omega

/-- C4: on a transition to any of the four range-owning states, a frame
already inside the new range is left unchanged; a frame inside a previous
range of positive length is remapped into the new range — either way the
displayed frame ends inside `[first, last]` of the updated component. -/
theorem frame_in_range_after_transition (s : PlayerState) (c : AnimComp)
    (hs : s ≠ PlayerState.Idle) :
    ((change_animation s c).first ≤ c.index →
      c.index ≤ (change_animation s c).last →
      (change_animation s c).index = c.index) ∧
    (c.first ≤ c.index → c.index ≤ c.last → c.first < c.last →
      (change_animation s c).first ≤ (change_animation s c).index ∧
      (change_animation s c).index ≤ (change_animation s c).last) := by
  obtain ⟨f, l, h, hfl⟩ : ∃ f l, animRange s = some (f, l) ∧ f ≤ l := by
    cases s
    · exact absurd rfl hs
    · exact ⟨0, 11, rfl, by omega⟩
    · exact ⟨20, 24, rfl, by omega⟩
    · exact ⟨12, 19, rfl, by omega⟩
    · exact ⟨25, 29, rfl, by omega⟩
  rw [change_animation_spec s f l c h]
  dsimp only
  constructor
  · intro h1 h2
    rw [if_neg]
    omega
  · intro ha hb hab
    by_cases hin : c.index < f ∨ l < c.index
    · rw [if_pos hin]
      exact remap_bounds c.first c.last f l c.index ha hb hab hfl
    · rw [if_neg hin]
      omega

/-- C4 witness: the theorem applied to a transition from the walk range to
the run range at frame 6 (remap case) and to a frame already inside the
walk range (no-op case). -/
theorem frame_in_range_after_transition_witness :
    ((change_animation PlayerState.Running
        { first := 0, last := 11, index := 6 }).first ≤
      (change_animation PlayerState.Running
        { first := 0, last := 11, index := 6 }).index ∧
      (change_animation PlayerState.Running
        { first := 0, last := 11, index := 6 }).index ≤
      (change_animation PlayerState.Running
        { first := 0, last := 11, index := 6 }).last) ∧
    (change_animation PlayerState.Walking
      { first := 0, last := 11, index := 7 }).index = 7 :=
  ⟨(frame_in_range_after_transition PlayerState.Running
      { first := 0, last := 11, index := 6 } (by simp)).2
        (by decide) (by decide) (by decide),
   (frame_in_range_after_transition PlayerState.Walking
      { first := 0, last := 11, index := 7 } (by simp)).1
        (by decide) (by decide)⟩

/-- A player that is still flagged grounded after `jump_stage` was grounded
before it and has not moved vertically. -/
lemma jump_stage_grounded (inp : Input) (p : PlayerT)
    (h : (jump_stage inp p).on_ground = true) :
    (jump_stage inp p).y = p.y ∧ p.on_ground = true := by
  unfold jump_stage at h ⊢
  split_ifs at h ⊢ with h1 h2 h3 h4
  · exact absurd h h2
  · exact absurd h h2
  · exact ⟨rfl, h⟩
  · exact ⟨rfl, h⟩

/-- One frame preserves the forward ground invariant: a player flagged
grounded at the end of a frame sits exactly at `GROUND_Y`. -/
lemma frameStep_ground_inv (inp : Input) (p : PlayerT)
    (h : p.on_ground = true → p.y = GROUND_Y) :
    (frameStep inp p).on_ground = true → (frameStep inp p).y = GROUND_Y := by
  unfold frameStep apply_gravity
  set p' : PlayerT := { p with x := animate_move p.state p.x } with hp'
  have hinv : p'.on_ground = true → p'.y = GROUND_Y := h
  split_ifs with hq
  · unfold player_movement ground_stage at hq ⊢
    split_ifs with hc
    · intro _; rfl
    · intro hog
      rw [shift_stage_on_ground, arrows_stage_on_ground] at hog
      obtain ⟨hy, hogp⟩ := jump_stage_grounded inp p' hog
      rw [shift_stage_y, arrows_stage_y, hy]
      exact hinv hogp
  · intro hfalse
    exact absurd hfalse (by simpa using hq)

/-- Forward ground invariant, over all reachable states: at the end of
every full frame starting from the setup player, `on_ground = true` implies
that the vertical position equals `GROUND_Y`.  This direction is structural
(`on_ground` is only ever set true together with the clamp to `GROUND_Y`,
and y never moves while it stays true), so it does not depend on the
numeric values of the constants. -/
theorem on_ground_imp_ground_level (l : List Input) :
    (run setup_player l).on_ground = true →
    (run setup_player l).y = GROUND_Y := by
  suffices hgen : ∀ (l' : List Input) (p : PlayerT),
      (p.on_ground = true → p.y = GROUND_Y) →
      ((run p l').on_ground = true → (run p l').y = GROUND_Y) by
    exact hgen l setup_player (fun _ => rfl)
  intro l'
  induction l' with
  | nil => exact fun p h => h
  | cons i t ih => exact fun p h => ih (frameStep i p) (frameStep_ground_inv i p h)

/-- The forward ground invariant instantiated at the empty frame list. -/
theorem on_ground_imp_ground_level_witness :
    (run setup_player []).y = GROUND_Y :=
  on_ground_imp_ground_level [] rfl

/-- `player_movement` only ever writes the states Jumping, Falling, Running
and Walking; otherwise it leaves the state alone. -/
lemma player_movement_state_cases (inp : Input) (p : PlayerT) :
    (player_movement inp p).state = p.state ∨
    (player_movement inp p).state = PlayerState.Jumping ∨
    (player_movement inp p).state = PlayerState.Falling ∨
    (player_movement inp p).state = PlayerState.Running ∨
    (player_movement inp p).state = PlayerState.Walking := by
  unfold player_movement
  unfold ground_stage
  split_ifs with hc
  · simp
  · unfold shift_stage
    split_ifs with hsp hsr
    · simp
    · simp
    · rw [arrows_stage_state]
      unfold jump_stage
      split_ifs <;> simp

/-- `frameStep` only ever writes the states Jumping, Falling, Running and
Walking; otherwise it leaves the state alone. -/
lemma frameStep_state_cases (inp : Input) (p : PlayerT) :
    (frameStep inp p).state = p.state ∨
    (frameStep inp p).state = PlayerState.Jumping ∨
    (frameStep inp p).state = PlayerState.Falling ∨
    (frameStep inp p).state = PlayerState.Running ∨
    (frameStep inp p).state = PlayerState.Walking := by
  unfold frameStep
  rw [apply_gravity_state]
  exact player_movement_state_cases inp _

/-- C10: starting from the player spawned by `setup` (state Walking), no
sequence of frames and inputs ever produces state Idle: every reachable
state is Walking, Running, Jumping or Falling. -/
theorem never_idle (l : List Input) :
    (run setup_player l).state = PlayerState.Walking ∨
    (run setup_player l).state = PlayerState.Running ∨
    (run setup_player l).state = PlayerState.Jumping ∨
    (run setup_player l).state = PlayerState.Falling := by
  suffices hgen : ∀ (l' : List Input) (p : PlayerT),
      (p.state = PlayerState.Walking ∨ p.state = PlayerState.Running ∨
        p.state = PlayerState.Jumping ∨ p.state = PlayerState.Falling) →
      ((run p l').state = PlayerState.Walking ∨
        (run p l').state = PlayerState.Running ∨
        (run p l').state = PlayerState.Jumping ∨
        (run p l').state = PlayerState.Falling) by
    exact hgen l setup_player (Or.inl rfl)
  intro l'
  induction l' with
  | nil => exact fun p h => h
  | cons i t ih =>
      intro p h
      refine ih (frameStep i p) ?_
      rcases frameStep_state_cases i p with hs | hs | hs | hs | hs
      · rw [hs]; exact h
      · rw [hs]; tauto
      · rw [hs]; tauto
      · rw [hs]; tauto
      · rw [hs]; tauto

end Dinorun
